import Mathlib

/-!
Shallow embedding of the `spending-tracker` repository (two Python variants:
`src/cli/spending-tracker.py`, modelled in namespace `CLI`, and
`src/spending-tracker.py`, modelled in namespace `V1`), together with proofs
settling the specification claims about the record store: load/save round
trips, id uniqueness, delete/edit semantics, date-filtered listing and the
aggregate totals.

Python floats are modelled by `ℚ` (the program does no arithmetic that
distinguishes them on the inputs at issue, and `json` round-trips floats
exactly); Python strings by `String`; `None`-able parameters by `Option`.
-/

namespace SpendTrack

/-- A Python value as far as the program's `!=` comparisons need: the stored
record ids are `str`, while the `delete` CLI of the `src/spending-tracker.py`
variant parses its argument with `type=int`.  Python `==` between a `str` and
an `int` is `False`. -/
inductive PyVal where
  | str (s : String)
  | int (n : Int)
deriving DecidableEq, Repr

/-- Python `==` on the values above: equal only within the same type. -/
def pyEq : PyVal → PyVal → Bool
  | .str a, .str b => a == b
  | .int a, .int b => a == b
  | _, _ => false

/-- Python `str(v)` for the values above (used in printed messages). -/
def pyStr : PyVal → String
  | .str s => s
  | .int n => toString n

/-- JSON values, as produced by `json.load` on a syntactically valid file. -/
inductive Json where
  | null
  | bool (b : Bool)
  | num (q : ℚ)
  | str (s : String)
  | arr (xs : List Json)
  | obj (fields : List (String × Json))

/-- A `datetime.datetime` value.  The constructor in Python validates its
components, so only in-range values occur; comparison is lexicographic. -/
structure DateTime where
  year : Nat
  month : Nat
  day : Nat
  hour : Nat
  minute : Nat
  second : Nat
deriving DecidableEq, Repr

/-- Python `datetime <` : lexicographic comparison of the components. -/
def DateTime.ltb (a b : DateTime) : Bool :=
  if a.year ≠ b.year then a.year < b.year
  else if a.month ≠ b.month then a.month < b.month
  else if a.day ≠ b.day then a.day < b.day
  else if a.hour ≠ b.hour then a.hour < b.hour
  else if a.minute ≠ b.minute then a.minute < b.minute
  else a.second < b.second

/-- Python `datetime <=` (`a <= b` iff not `b < a`, the order being total). -/
def DateTime.leb (a b : DateTime) : Bool :=
  !(DateTime.ltb b a)

/-! ### `datetime.datetime.strptime`

CPython's `_strptime` compiles the format into a regex
(`%Y` ↦ `\d{4}`, `%m` ↦ `1[0-2]|0[1-9]|[1-9]`, `%d` ↦ `3[01]|[12]\d|0[1-9]|[1-9]`,
`%H` ↦ `2[0-3]|[0-1]\d|\d`, `%M` ↦ `[0-5]\d|\d`, `%S` ↦ `6[0-1]|[0-5]\d|\d`),
requires the whole string to match, and then builds a `datetime`, which
re-validates the components (day against the month length, second ≤ 59,
year ≥ 1).  We reproduce the regex alternation order and its backtracking by
listing each field's candidate matches and trying them in order against the
continuation. -/

def digitVal (c : Char) : Option Nat :=
  if c.isDigit then some (c.toNat - 48) else none

/-- Exactly four digits (`%Y`). -/
def parse4 : List Char → Option (Nat × List Char)
  | a :: b :: c :: d :: rest =>
    match digitVal a, digitVal b, digitVal c, digitVal d with
    | some x, some y, some z, some w => some (1000 * x + 100 * y + 10 * z + w, rest)
    | _, _, _, _ => none
  | _ => none

/-- Try each candidate in order, taking the first whose continuation succeeds
(regex alternation with backtracking). -/
def firstSome {α β : Type} : List α → (α → Option β) → Option β
  | [], _ => none
  | a :: rest, f =>
    match f a with
    | some b => some b
    | none => firstSome rest f

/-- Candidates for `%m` = `1[0-2]|0[1-9]|[1-9]`, in alternation order. -/
def monthCands : List Char → List (Nat × List Char)
  | c1 :: c2 :: rest =>
    (match digitVal c1, digitVal c2 with
     | some d1, some d2 =>
       (if d1 = 1 ∧ d2 ≤ 2 then [(10 + d2, rest)] else []) ++
       (if d1 = 0 ∧ 1 ≤ d2 then [(d2, rest)] else []) ++
       (if 1 ≤ d1 then [(d1, c2 :: rest)] else [])
     | some d1, none => if 1 ≤ d1 then [(d1, c2 :: rest)] else []
     | _, _ => [])
  | [c1] =>
    (match digitVal c1 with
     | some d1 => if 1 ≤ d1 then [(d1, [])] else []
     | none => [])
  | [] => []

/-- Candidates for `%d` = `3[01]|[12]\d|0[1-9]|[1-9]`, in alternation order. -/
def dayCands : List Char → List (Nat × List Char)
  | c1 :: c2 :: rest =>
    (match digitVal c1, digitVal c2 with
     | some d1, some d2 =>
       (if d1 = 3 ∧ d2 ≤ 1 then [(30 + d2, rest)] else []) ++
       (if d1 = 1 ∨ d1 = 2 then [(10 * d1 + d2, rest)] else []) ++
       (if d1 = 0 ∧ 1 ≤ d2 then [(d2, rest)] else []) ++
       (if 1 ≤ d1 then [(d1, c2 :: rest)] else [])
     | some d1, none => if 1 ≤ d1 then [(d1, c2 :: rest)] else []
     | _, _ => [])
  | [c1] =>
    (match digitVal c1 with
     | some d1 => if 1 ≤ d1 then [(d1, [])] else []
     | none => [])
  | [] => []

/-- Candidates for `%H` = `2[0-3]|[0-1]\d|\d`, in alternation order. -/
def hourCands : List Char → List (Nat × List Char)
  | c1 :: c2 :: rest =>
    (match digitVal c1, digitVal c2 with
     | some d1, some d2 =>
       (if d1 = 2 ∧ d2 ≤ 3 then [(20 + d2, rest)] else []) ++
       (if d1 ≤ 1 then [(10 * d1 + d2, rest)] else []) ++
       [(d1, c2 :: rest)]
     | some d1, none => [(d1, c2 :: rest)]
     | _, _ => [])
  | [c1] =>
    (match digitVal c1 with
     | some d1 => [(d1, [])]
     | none => [])
  | [] => []

/-- Candidates for `%M` = `[0-5]\d|\d`, in alternation order. -/
def minuteCands : List Char → List (Nat × List Char)
  | c1 :: c2 :: rest =>
    (match digitVal c1, digitVal c2 with
     | some d1, some d2 =>
       (if d1 ≤ 5 then [(10 * d1 + d2, rest)] else []) ++
       [(d1, c2 :: rest)]
     | some d1, none => [(d1, c2 :: rest)]
     | _, _ => [])
  | [c1] =>
    (match digitVal c1 with
     | some d1 => [(d1, [])]
     | none => [])
  | [] => []

/-- Candidates for `%S` = `6[0-1]|[0-5]\d|\d`, in alternation order. -/
def secondCands : List Char → List (Nat × List Char)
  | c1 :: c2 :: rest =>
    (match digitVal c1, digitVal c2 with
     | some d1, some d2 =>
       (if d1 = 6 ∧ d2 ≤ 1 then [(60 + d2, rest)] else []) ++
       (if d1 ≤ 5 then [(10 * d1 + d2, rest)] else []) ++
       [(d1, c2 :: rest)]
     | some d1, none => [(d1, c2 :: rest)]
     | _, _ => [])
  | [c1] =>
    (match digitVal c1 with
     | some d1 => [(d1, [])]
     | none => [])
  | [] => []

/-- Match one literal character. -/
def expectChar (c : Char) : List Char → Option (List Char)
  | c1 :: rest => if c1 = c then some rest else none
  | [] => none

def isLeap (y : Nat) : Bool :=
  y % 4 == 0 && (y % 100 != 0 || y % 400 == 0)

def daysInMonth (y m : Nat) : Nat :=
  if m = 2 then (if isLeap y then 29 else 28)
  else if m = 4 ∨ m = 6 ∨ m = 9 ∨ m = 11 then 30
  else 31

/-- The validation `datetime.datetime(...)` performs on already
regex-matched components. -/
def validDateTime (y mo d h mi s : Nat) : Bool :=
  1 ≤ y && 1 ≤ mo && mo ≤ 12 && 1 ≤ d && d ≤ daysInMonth y mo &&
  h ≤ 23 && mi ≤ 59 && s ≤ 59

/-- Model of `datetime.datetime.strptime(s, "%Y-%m-%d")`: unmatched input or
out-of-range components raise `ValueError`, modelled as `none`; the missing
time components default to zero. -/
def parseDate (str : String) : Option DateTime :=
  (parse4 str.data).bind fun ycs =>
  (expectChar '-' ycs.2).bind fun cs1 =>
  firstSome (monthCands cs1) fun mocs =>
  (expectChar '-' mocs.2).bind fun cs2 =>
  firstSome (dayCands cs2) fun dcs =>
  if dcs.2 = [] ∧ validDateTime ycs.1 mocs.1 dcs.1 0 0 0 then
    some ⟨ycs.1, mocs.1, dcs.1, 0, 0, 0⟩
  else none

/-- Model of `datetime.datetime.strptime(s, "%Y-%m-%d %H:%M:%S")`. -/
def parseDateTime (str : String) : Option DateTime :=
  (parse4 str.data).bind fun ycs =>
  (expectChar '-' ycs.2).bind fun cs1 =>
  firstSome (monthCands cs1) fun mocs =>
  (expectChar '-' mocs.2).bind fun cs2 =>
  firstSome (dayCands cs2) fun dcs =>
  (expectChar ' ' dcs.2).bind fun cs3 =>
  firstSome (hourCands cs3) fun hcs =>
  (expectChar ':' hcs.2).bind fun cs4 =>
  firstSome (minuteCands cs4) fun mics =>
  (expectChar ':' mics.2).bind fun cs5 =>
  firstSome (secondCands cs5) fun scs =>
  if scs.2 = [] ∧ validDateTime ycs.1 mocs.1 dcs.1 hcs.1 mics.1 scs.1 then
    some ⟨ycs.1, mocs.1, dcs.1, hcs.1, mics.1, scs.1⟩
  else none

/-- Zero-pad to two digits (`strftime` `%m`, `%d`, `%H`, `%M`, `%S`). -/
def pad2 (n : Nat) : String :=
  if n < 10 then "0" ++ toString n else toString n

/-- Model of `dt.strftime("%Y-%m-%d %H:%M:%S")` (glibc `%Y` does not zero-pad). -/
def formatDateTime (dt : DateTime) : String :=
  toString dt.year ++ "-" ++ pad2 dt.month ++ "-" ++ pad2 dt.day ++ " " ++
  pad2 dt.hour ++ ":" ++ pad2 dt.minute ++ ":" ++ pad2 dt.second

/-- Last-wins lookup in a JSON object's field list: `json.load` builds a
`dict`, where a repeated key keeps its last value. -/
def jlookup (fields : List (String × Json)) (k : String) : Option Json :=
  fields.foldl (fun acc p => if p.1 == k then some p.2 else acc) none

/-! ## The full variant, `src/cli/spending-tracker.py` -/

namespace CLI

/-- One spending record of the full variant.  The program only ever stores
strings in `id`, `item`, `currency`, `category`, `date` and a number in
`amount` (the `add` CLI passes strings / a parsed float, and `to_dict`
writes those back to the file). -/
structure Spending where
  id : String
  item : String
  amount : ℚ
  currency : String
  category : String
  date : String
deriving DecidableEq, Repr

/-- Constructor `Spending.__init__(item, amount, currency="usd", category="Other",
id=None, date=None)`.  `id or str(uuid.uuid4())` replaces a falsy id
(`None` or `""`) with a fresh uuid string, and `date or
datetime.now().strftime(...)` likewise; the fresh uuid string and the
formatted current time are passed in as `freshId` and `now`. -/
def Spending.init (item : String) (amount : ℚ) (currency : String)
    (category : String) (id? : Option String) (date? : Option String)
    (freshId : String) (now : String) : Spending :=
  { id := match id? with
      | none => freshId
      | some s => if s = "" then freshId else s
    item := item
    amount := amount
    currency := currency
    category := category
    date := match date? with
      | none => now
      | some s => if s = "" then now else s }

/-- Serialization `Spending.to_dict`. -/
def Spending.toDict (s : Spending) : Json :=
  .obj [("id", .str s.id), ("item", .str s.item), ("amount", .num s.amount),
        ("currency", .str s.currency), ("category", .str s.category),
        ("date", .str s.date)]

/-- The keyword names `Spending.__init__` accepts; `Spending(**item)` raises
`TypeError` on any other key. -/
def allowedKey (k : String) : Bool :=
  k == "item" || k == "amount" || k == "currency" || k == "category" ||
  k == "id" || k == "date"

/-- Deserialization `Spending(**item)` for one deserialized JSON object.  `item` and
`amount` are required (`TypeError` if missing); `currency` and `category`
default; an absent or `null` `id` / `date` behaves like `None`.  The model
requires the fields to carry the types the program itself writes (a file
whose fields have other types is outside every claim's scope). -/
def fromDict (freshId now : String) (j : Json) : Option Spending :=
  match j with
  | .obj fields =>
    if (fields.map Prod.fst).all allowedKey then
      match jlookup fields "item", jlookup fields "amount" with
      | some (.str it), some (.num am) =>
        let cur : Option String := match jlookup fields "currency" with
          | none => some "usd"
          | some (.str c) => some c
          | some _ => none
        let cat : Option String := match jlookup fields "category" with
          | none => some "Other"
          | some (.str c) => some c
          | some _ => none
        let idArg : Option (Option String) := match jlookup fields "id" with
          | none => some none
          | some .null => some none
          | some (.str s) => some (some s)
          | some _ => none
        let dateArg : Option (Option String) := match jlookup fields "date" with
          | none => some none
          | some .null => some none
          | some (.str s) => some (some s)
          | some _ => none
        match cur, cat, idArg, dateArg with
        | some c, some k, some i, some d =>
          some (Spending.init it am c k i d freshId now)
        | _, _, _, _ => none
      | _, _ => none
    else none
  | _ => none

/-- The comprehension `[Spending(**item) for item in data]` over the
elements of the parsed array, failing (an uncaught exception) on the first
ill-formed element.  `gen n` supplies the fresh uuid / current-time strings
a record at position `n` would draw if its `id` / `date` were falsy. -/
def decodeList (gen : Nat → String × String) :
    List Json → Nat → Option (List Spending)
  | [], _ => some []
  | x :: rest, n =>
    match fromDict (gen n).1 (gen n).2 x with
    | none => none
    | some s =>
      match decodeList gen rest (n + 1) with
      | none => none
      | some l => some (s :: l)

/-- The body of `load_spendings` on a parsed file: iterate `data` building
records; a non-array document makes the comprehension raise (iterating a
dict yields strings, and `Spending(**item)` then raises). -/
def decodeSpendings (gen : Nat → String × String) (j : Json) :
    Option (List Spending) :=
  match j with
  | .arr xs => decodeList gen xs 0
  | _ => none

/-- The state of the backing file: `none` = the file does not exist;
`some none` = it exists but `json.load` fails on its content;
`some (some j)` = it exists and parses to the JSON document `j`. -/
def FileState : Type := Option (Option Json)

/-- Loading, `load_spendings`: missing file → empty collection; `json.load` failure
or a malformed document → uncaught exception (`Except.error`). -/
def load_spendings (gen : Nat → String × String) (file : FileState) :
    Except String (List Spending) :=
  match file with
  | none => .ok []
  | some none => .error "json.load raised"
  | some (some j) =>
    match decodeSpendings gen j with
    | none => .error "Spending(**item) raised"
    | some l => .ok l

/-- Saving: `save_spendings` writes `json.dump([s.to_dict() for s in spendings])`;
this is the JSON document the file then parses to. -/
def savedJson (l : List Spending) : Json :=
  .arr (l.map Spending.toDict)

/-- One `append_spending` call together with the environment values it
draws: the fresh uuid string and the formatted current time. -/
structure AddOp where
  item : String
  amount : ℚ
  currency : String
  category : String
  date? : Option String
  freshId : String
  now : String
deriving Repr

/-- Appending, `append_spending`: construct the record (always with `id=None`) and
append it. -/
def append_spending (l : List Spending) (op : AddOp) : List Spending :=
  l ++ [Spending.init op.item op.amount op.currency op.category none op.date?
        op.freshId op.now]

/-- A sequence of `add` invocations starting from collection `l`. -/
def runAdds (l : List Spending) (ops : List AddOp) : List Spending :=
  ops.foldl append_spending l

/-- One step of `get_total_spendings`:
`if cur not in totals: totals[cur] = 0; totals[cur] += amt` on an
insertion-ordered dict represented as an association list. -/
def addToTotals (totals : List (String × ℚ)) (cur : String) (amt : ℚ) :
    List (String × ℚ) :=
  match totals with
  | [] => [(cur, amt)]
  | (c, a) :: rest =>
    if c = cur then (c, a + amt) :: rest else (c, a) :: addToTotals rest cur amt

/-- Totals, `get_total_spendings`: per-currency sums over **all** records of the
collection (the function takes no filters). -/
def get_total_spendings (l : List Spending) : List (String × ℚ) :=
  l.foldl (fun t s => addToTotals t s.currency s.amount) []

/-- Look one currency up in the totals dict. -/
def lookupTotal (totals : List (String × ℚ)) (cur : String) : Option ℚ :=
  (totals.find? (fun p => p.1 == cur)).map Prod.snd

/-- Check `if category and spending.category != category: continue` — the filter
is skipped when the argument is `None` **or falsy** (the empty string). -/
def catBlocks (cat : Option String) (recordCat : String) : Bool :=
  match cat with
  | none => false
  | some c => if c == "" then false else recordCat != c

/-- Check `if from_date and spending.date < from_date: continue` (a parsed
`datetime` is always truthy). -/
def fromBlocks (fromDate : Option DateTime) (dt : DateTime) : Bool :=
  match fromDate with
  | none => false
  | some fd => DateTime.ltb dt fd

/-- Check `if to_date and spending.date > to_date: continue`. -/
def toBlocks (toDate : Option DateTime) (dt : DateTime) : Bool :=
  match toDate with
  | none => false
  | some td => DateTime.ltb td dt

/-- A record (with already-parsed timestamp `dt`) survives all three
`continue` checks of `overview`. -/
def passes (cat : Option String) (fromDate toDate : Option DateTime)
    (s : Spending) (dt : DateTime) : Bool :=
  !(catBlocks cat s.category) && !(fromBlocks fromDate dt) &&
  !(toBlocks toDate dt)

/-- The records `overview` prints a line for, in order.  `overview` first
re-parses every record's `date` string (raising on failure even for records
the filters would drop — modelled as `none`), then applies the category and
date-bound checks. -/
def overviewRecords (l : List Spending) (fromDate toDate : Option DateTime)
    (cat : Option String) : Option (List Spending) :=
  match l with
  | [] => some []
  | s :: rest =>
    match parseDateTime s.date with
    | none => none
    | some dt =>
      match overviewRecords rest fromDate toDate cat with
      | none => none
      | some tail =>
        some (if passes cat fromDate toDate s dt then s :: tail else tail)

/-- What `overview` reports: the filtered listing and the totals line.  The
totals come from `get_total_spendings()` on the whole collection, computed
after the listing loop. -/
structure OverviewResult where
  listed : List Spending
  totals : List (String × ℚ)
deriving DecidableEq, Repr

/-- Listing, `overview(from_date, to_date, category)`. -/
def overview (l : List Spending) (fromDate toDate : Option DateTime)
    (cat : Option String) : Option OverviewResult :=
  (overviewRecords l fromDate toDate cat).map fun listed =>
    { listed := listed, totals := get_total_spendings l }

/-- Outcome of an operation that may rewrite the backing file and prints a
message. -/
structure MutResult where
  spendings : List Spending
  fileWritten : Bool
  message : String
deriving DecidableEq, Repr

/-- Deletion, `delete_spending`: keep the records whose id differs, then always save
and print the confirmation. -/
def delete_spending (l : List Spending) (sid : String) : MutResult :=
  { spendings := l.filter (fun s => s.id != sid)
    fileWritten := true
    message := "Spending with ID " ++ sid ++ " has been deleted." }

/-- The in-place field updates `edit_spending` applies to the record it
found (`if item is not None: ...` for each field; `date` is not editable). -/
def applyEdit (s : Spending) (item? : Option String) (amount? : Option ℚ)
    (currency? category? : Option String) : Spending :=
  { s with
    item := item?.getD s.item
    amount := amount?.getD s.amount
    currency := currency?.getD s.currency
    category := category?.getD s.category }

/-- The loop of `edit_spending`: update the first record whose id matches
and stop (`return`); report whether one was found. -/
def edit_spending (l : List Spending) (sid : String) (item? : Option String)
    (amount? : Option ℚ) (currency? category? : Option String) :
    List Spending × Bool :=
  match l with
  | [] => ([], false)
  | s :: rest =>
    if s.id = sid then (applyEdit s item? amount? currency? category? :: rest, true)
    else
      let r := edit_spending rest sid item? amount? currency? category?
      (s :: r.1, r.2)

/-- Operation `edit_spending`, as a command: the file is saved exactly when a record
was found, and the printed message reports which case occurred. -/
def edit_command (l : List Spending) (sid : String) (item? : Option String)
    (amount? : Option ℚ) (currency? category? : Option String) : MutResult :=
  let r := edit_spending l sid item? amount? currency? category?
  { spendings := r.1
    fileWritten := r.2
    message := if r.2 then "Spending with ID " ++ sid ++ " has been updated."
               else "No spending found with ID " ++ sid ++ "." }

/-- Outcome of the `add` branch of `__main__`: the resulting collection,
whether the file was rewritten, the process exit code, and the message
printed on failure. -/
structure AddResult where
  spendings : List Spending
  fileWritten : Bool
  exitCode : Nat
  errMessage : Option String
deriving DecidableEq, Repr

/-- The `add` branch of `__main__`: the guard `if args.date:` runs the
`strptime` attempt only when the argument is present **and truthy** (a
supplied empty string is falsy, so parsing is skipped and `date` stays
`None`); an ill-formed non-empty `--date` prints the error and exits with
status 1 before any mutation; otherwise the date (reformatted with
`strftime("%Y-%m-%d %H:%M:%S")` when parsed) goes to `append_spending`,
which appends and saves. -/
def add_command (l : List Spending) (item : String) (amount : ℚ)
    (currency category : String) (dateArg : Option String)
    (freshId now : String) : AddResult :=
  match dateArg with
  | some ds =>
    if ds = "" then
      { spendings := append_spending l
          ⟨item, amount, currency, category, none, freshId, now⟩
        fileWritten := true, exitCode := 0, errMessage := none }
    else
      match parseDate ds with
      | none =>
        { spendings := l, fileWritten := false, exitCode := 1
          errMessage := some "Invalid date format. Please use YYYY-MM-DD." }
      | some dt =>
        { spendings := append_spending l
            ⟨item, amount, currency, category, some (formatDateTime dt), freshId, now⟩
          fileWritten := true, exitCode := 0, errMessage := none }
  | none =>
    { spendings := append_spending l
        ⟨item, amount, currency, category, none, freshId, now⟩
      fileWritten := true, exitCode := 0, errMessage := none }

end CLI

/-! ## The simple variant, `src/spending-tracker.py`
(no `currency` field, unfiltered listing with a scalar conversion rate,
`delete` CLI argument parsed with `type=int`). -/

namespace V1

/-- One spending record of the simple variant. -/
structure Spending where
  id : String
  item : String
  amount : ℚ
  category : String
  date : String
deriving DecidableEq, Repr

/-- Constructor `Spending.__init__(item, amount, category="Other", id=None, date=None)`
with the same falsy-defaulting as the full variant. -/
def Spending.init (item : String) (amount : ℚ) (category : String)
    (id? : Option String) (date? : Option String) (freshId : String)
    (now : String) : Spending :=
  { id := match id? with
      | none => freshId
      | some s => if s = "" then freshId else s
    item := item
    amount := amount
    category := category
    date := match date? with
      | none => now
      | some s => if s = "" then now else s }

/-- Serialization `Spending.to_dict`. -/
def Spending.toDict (s : Spending) : Json :=
  .obj [("id", .str s.id), ("item", .str s.item), ("amount", .num s.amount),
        ("category", .str s.category), ("date", .str s.date)]

/-- The keyword names this variant's `Spending.__init__` accepts. -/
def allowedKey (k : String) : Bool :=
  k == "item" || k == "amount" || k == "category" || k == "id" || k == "date"

/-- Deserialization `Spending(**item)` for one deserialized JSON object of this variant. -/
def fromDict (freshId now : String) (j : Json) : Option Spending :=
  match j with
  | .obj fields =>
    if (fields.map Prod.fst).all allowedKey then
      match jlookup fields "item", jlookup fields "amount" with
      | some (.str it), some (.num am) =>
        let cat : Option String := match jlookup fields "category" with
          | none => some "Other"
          | some (.str c) => some c
          | some _ => none
        let idArg : Option (Option String) := match jlookup fields "id" with
          | none => some none
          | some .null => some none
          | some (.str s) => some (some s)
          | some _ => none
        let dateArg : Option (Option String) := match jlookup fields "date" with
          | none => some none
          | some .null => some none
          | some (.str s) => some (some s)
          | some _ => none
        match cat, idArg, dateArg with
        | some k, some i, some d => some (Spending.init it am k i d freshId now)
        | _, _, _ => none
      | _, _ => none
    else none
  | _ => none

/-- The comprehension `[Spending(**item) for item in data]` for this
variant. -/
def decodeList (gen : Nat → String × String) :
    List Json → Nat → Option (List Spending)
  | [], _ => some []
  | x :: rest, n =>
    match fromDict (gen n).1 (gen n).2 x with
    | none => none
    | some s =>
      match decodeList gen rest (n + 1) with
      | none => none
      | some l => some (s :: l)

/-- The body of `load_spendings` on a parsed file for this variant. -/
def decodeSpendings (gen : Nat → String × String) (j : Json) :
    Option (List Spending) :=
  match j with
  | .arr xs => decodeList gen xs 0
  | _ => none

/-- Loading for this variant (same structure as the full one). -/
def load_spendings (gen : Nat → String × String) (file : Option (Option Json)) :
    Except String (List Spending) :=
  match file with
  | none => .ok []
  | some none => .error "json.load raised"
  | some (some j) =>
    match decodeSpendings gen j with
    | none => .error "Spending(**item) raised"
    | some l => .ok l

/-- The JSON document `save_spendings` writes. -/
def savedJson (l : List Spending) : Json :=
  .arr (l.map Spending.toDict)

/-- One `append_spending` call of this variant with its environment draws. -/
structure AddOp where
  item : String
  amount : ℚ
  category : String
  date? : Option String
  freshId : String
  now : String
deriving Repr

/-- Appending, `append_spending`. -/
def append_spending (l : List Spending) (op : AddOp) : List Spending :=
  l ++ [Spending.init op.item op.amount op.category none op.date? op.freshId
        op.now]

/-- A sequence of `add` invocations of this variant. -/
def runAdds (l : List Spending) (ops : List AddOp) : List Spending :=
  ops.foldl append_spending l

/-- Totals, `get_total_spendings`: `sum(s.amount for s in spendings)`. -/
def get_total_spendings (l : List Spending) : ℚ :=
  l.foldl (fun acc s => acc + s.amount) 0

/-- The total printed by `overview(currency_rate)`:
`get_total_spendings() * currency_rate` (no filters in this variant). -/
def overviewTotal (l : List Spending) (rate : ℚ) : ℚ :=
  get_total_spendings l * rate

/-- Result of a `delete` invocation of this variant. -/
structure DeleteResult where
  spendings : List Spending
  fileWritten : Bool
  message : String
deriving DecidableEq, Repr

/-- Deletion, `delete_spending`: the comparison `spending.id != spending_id` is
Python `!=` between the stored `str` id and whatever the caller passed —
the CLI passes the `int` its `type=int` argument parser produced. -/
def delete_spending (l : List Spending) (sid : PyVal) : DeleteResult :=
  { spendings := l.filter (fun s => !(pyEq (.str s.id) sid))
    fileWritten := true
    message := "Spending with ID " ++ pyStr sid ++ " has been deleted." }

/-- Outcome of the `add` branch of this variant's `__main__`. -/
structure AddResult where
  spendings : List Spending
  fileWritten : Bool
  exitCode : Nat
  errMessage : Option String
deriving DecidableEq, Repr

/-- The `add` branch of this variant's `__main__` (same date handling as
the full variant, including the `if args.date:` truthiness guard; no
`--currency`). -/
def add_command (l : List Spending) (item : String) (amount : ℚ)
    (category : String) (dateArg : Option String) (freshId now : String) :
    AddResult :=
  match dateArg with
  | some ds =>
    if ds = "" then
      { spendings := append_spending l ⟨item, amount, category, none, freshId, now⟩
        fileWritten := true, exitCode := 0, errMessage := none }
    else
      match parseDate ds with
      | none =>
        { spendings := l, fileWritten := false, exitCode := 1
          errMessage := some "Invalid date format. Please use YYYY-MM-DD." }
      | some dt =>
        { spendings := append_spending l
            ⟨item, amount, category, some (formatDateTime dt), freshId, now⟩
          fileWritten := true, exitCode := 0, errMessage := none }
  | none =>
    { spendings := append_spending l ⟨item, amount, category, none, freshId, now⟩
      fileWritten := true, exitCode := 0, errMessage := none }

end V1

/-! ## Helper lemmas and instances -/

/-- Kernel-reducible decidable equality for `Except` results. -/
instance exceptDecEq {ε α : Type} [DecidableEq ε] [DecidableEq α] :
    DecidableEq (Except ε α) := fun a b =>
  match a, b with
  | .ok x, .ok y =>
    if h : x = y then .isTrue (by rw [h])
    else .isFalse (fun hc => h (Except.ok.inj hc))
  | .error x, .error y =>
    if h : x = y then .isTrue (by rw [h])
    else .isFalse (fun hc => h (Except.error.inj hc))
  | .ok _, .error _ => .isFalse (fun hc => Except.noConfusion hc)
  | .error _, .ok _ => .isFalse (fun hc => Except.noConfusion hc)

/-! ## Claims -/

/-- C2. In the `src/spending-tracker.py` variant the `delete` CLI
argument is parsed with `type=int`, while every stored id is a string, and
Python `==` between an `int` and a `str` is `False`: `delete_spending`
applied to any integer id keeps every record, yet still rewrites the
backing file and prints the deletion confirmation. -/
theorem v1_delete_int_id_removes_nothing (l : List V1.Spending) (n : Int) :
    V1.delete_spending l (.int n) =
      { spendings := l, fileWritten := true,
        message := "Spending with ID " ++ toString n ++ " has been deleted." } := by
  unfold V1.delete_spending
  have hfil : l.filter (fun s => !(pyEq (.str s.id) (.int n))) = l :=
    List.filter_eq_self.mpr (fun s _ => by simp [pyEq])
  rw [hfil]
  rfl

/-- C5. `delete_spending` of the full variant removes exactly the
records whose id equals the given one, keeps the others in their original
order (the result is a sublist of the input), and when no record carries
that id the collection is returned unchanged; the function is total, so no
fatal error can be raised. -/
theorem delete_removes_exactly_matching (l : List CLI.Spending) (sid : String) :
    (CLI.delete_spending l sid).spendings.Sublist l ∧
    (∀ s : CLI.Spending,
      s ∈ (CLI.delete_spending l sid).spendings ↔ s ∈ l ∧ s.id ≠ sid) ∧
    ((∀ s ∈ l, s.id ≠ sid) → (CLI.delete_spending l sid).spendings = l) := by
  refine ⟨List.filter_sublist l, fun s => ?_, fun h => ?_⟩
  · simp [CLI.delete_spending, List.mem_filter]
  · exact List.filter_eq_self.mpr (fun s hs => by simp [h s hs])

/-- Witness for C5 at a concrete input: a collection with no record of id
`"z"` is returned unchanged. -/
theorem delete_removes_exactly_matching_witness :
    (∀ s ∈ [(⟨"a", "Coffee", 2, "usd", "Food", "2024-01-01 00:00:00"⟩ :
        CLI.Spending)], s.id ≠ "z") ∧
    (CLI.delete_spending
        [⟨"a", "Coffee", 2, "usd", "Food", "2024-01-01 00:00:00"⟩] "z").spendings =
      [⟨"a", "Coffee", 2, "usd", "Food", "2024-01-01 00:00:00"⟩] :=
  ⟨by decide,
   (delete_removes_exactly_matching
      [⟨"a", "Coffee", 2, "usd", "Food", "2024-01-01 00:00:00"⟩] "z").2.2 (by decide)⟩

/-- Lemma: `edit_spending` finding no record: the collection comes back unchanged
with `found = false`. -/
theorem edit_spending_not_found (l : List CLI.Spending) (sid : String)
    (item? : Option String) (amount? : Option ℚ) (currency? category? : Option String)
    (h : ∀ s ∈ l, s.id ≠ sid) :
    CLI.edit_spending l sid item? amount? currency? category? = (l, false) := by
  induction l with
  | nil => rfl
  | cons s rest ih =>
    have hs : s.id ≠ sid := h s (List.mem_cons_self s rest)
    have hrest := ih (fun x hx => h x (List.mem_cons_of_mem s hx))
    simp [CLI.edit_spending, hs, hrest]

/-- C7. When no record carries the requested id, the `edit` operation
reports the not-found message, leaves the collection unchanged, and does
not rewrite the backing file (the save only happens inside the found
branch); no exception is raised. -/
theorem edit_not_found_no_mutation (l : List CLI.Spending) (sid : String)
    (item? : Option String) (amount? : Option ℚ)
    (currency? category? : Option String)
    (h : ∀ s ∈ l, s.id ≠ sid) :
    CLI.edit_command l sid item? amount? currency? category? =
      { spendings := l, fileWritten := false,
        message := "No spending found with ID " ++ sid ++ "." } := by
  unfold CLI.edit_command
  rw [edit_spending_not_found l sid item? amount? currency? category? h]
  rfl

/-- Witness for C7 at a concrete input. -/
theorem edit_not_found_no_mutation_witness :
    (∀ s ∈ [(⟨"a", "Coffee", 2, "usd", "Food", "2024-01-01 00:00:00"⟩ :
        CLI.Spending)], s.id ≠ "z") ∧
    CLI.edit_command
        [⟨"a", "Coffee", 2, "usd", "Food", "2024-01-01 00:00:00"⟩] "z"
        none (some 5) none none =
      { spendings := [⟨"a", "Coffee", 2, "usd", "Food", "2024-01-01 00:00:00"⟩],
        fileWritten := false,
        message := "No spending found with ID z." } :=
  ⟨by decide,
   edit_not_found_no_mutation
     [⟨"a", "Coffee", 2, "usd", "Food", "2024-01-01 00:00:00"⟩] "z"
     none (some 5) none none (by decide)⟩

/-- C8 counterexample. The empty string refutes the claim as stated: the
supplied `--date ""` does not parse as `YYYY-MM-DD`, yet in both variants
the guard `if args.date:` is falsy for it, so the parse attempt (and its
error exit) is skipped entirely — the record is appended with the current
timestamp, the file is written, and the process exits 0. -/
theorem add_empty_date_silently_appends_counterexample :
    parseDate "" = none ∧
    CLI.add_command [] "Coffee" 2 "usd" "Other" (some "") "u1"
        "2024-01-01 08:00:00" =
      { spendings := [⟨"u1", "Coffee", 2, "usd", "Other", "2024-01-01 08:00:00"⟩],
        fileWritten := true, exitCode := 0, errMessage := none } ∧
    V1.add_command [] "Coffee" 2 "Other" (some "") "u1" "2024-01-01 08:00:00" =
      { spendings := [⟨"u1", "Coffee", 2, "Other", "2024-01-01 08:00:00"⟩],
        fileWritten := true, exitCode := 0, errMessage := none } :=
  ⟨by decide, by decide, by decide⟩

/-- C8 amended. In both variants, when the user-supplied `--date` string is
**non-empty** (a supplied empty string is falsy, so `if args.date:` skips
date handling altogether and the record is appended with the current
timestamp) and fails to parse as `YYYY-MM-DD`, the `add` branch prints the
invalid-date message and exits with status 1 before touching anything: the
collection is not extended and the backing file is not written. -/
theorem add_bad_date_no_mutation :
    (∀ (l : List CLI.Spending) (item : String) (amount : ℚ)
        (currency category ds freshId now : String),
      ds ≠ "" →
      parseDate ds = none →
      CLI.add_command l item amount currency category (some ds) freshId now =
        { spendings := l, fileWritten := false, exitCode := 1,
          errMessage := some "Invalid date format. Please use YYYY-MM-DD." }) ∧
    (∀ (l : List V1.Spending) (item : String) (amount : ℚ)
        (category ds freshId now : String),
      ds ≠ "" →
      parseDate ds = none →
      V1.add_command l item amount category (some ds) freshId now =
        { spendings := l, fileWritten := false, exitCode := 1,
          errMessage := some "Invalid date format. Please use YYYY-MM-DD." }) := by
  constructor
  · intro l item amount currency category ds freshId now hne h
    simp [CLI.add_command, hne, h]
  · intro l item amount category ds freshId now hne h
    simp [V1.add_command, hne, h]

/-- Witness for the amended C8: `--date not-a-date` is non-empty, does not
parse, and mutates nothing in either variant. -/
theorem add_bad_date_no_mutation_witness :
    (("not-a-date" : String) ≠ "" ∧ parseDate "not-a-date" = none ∧
      CLI.add_command [] "Coffee" 2 "usd" "Other" (some "not-a-date") "f" "n" =
        { spendings := [], fileWritten := false, exitCode := 1,
          errMessage := some "Invalid date format. Please use YYYY-MM-DD." }) ∧
    (("not-a-date" : String) ≠ "" ∧ parseDate "not-a-date" = none ∧
      V1.add_command [] "Coffee" 2 "Other" (some "not-a-date") "f" "n" =
        { spendings := [], fileWritten := false, exitCode := 1,
          errMessage := some "Invalid date format. Please use YYYY-MM-DD." }) :=
  ⟨⟨by decide, by decide,
    add_bad_date_no_mutation.1 [] "Coffee" 2 "usd" "Other" "not-a-date" "f" "n"
      (by decide) (by decide)⟩,
   ⟨by decide, by decide,
    add_bad_date_no_mutation.2 [] "Coffee" 2 "Other" "not-a-date" "f" "n"
      (by decide) (by decide)⟩⟩

/-- C6. `edit` supplied only with a new amount: the first (under the
id-uniqueness invariant, the only) record with the given id gets exactly
its `amount` replaced — `item`, `currency`, `category` and `date` are kept
verbatim — and every record before and after it is kept unchanged; the
found flag (which drives the save and the confirmation message) is true. -/
theorem edit_amount_only_partial_update (l : List CLI.Spending) (sid : String)
    (a : ℚ) (h : ∃ s, s ∈ l ∧ s.id = sid) :
    (CLI.edit_spending l sid none (some a) none none).2 = true ∧
    ∃ pre s post, l = pre ++ s :: post ∧ s.id = sid ∧ (∀ x ∈ pre, x.id ≠ sid) ∧
      (CLI.edit_spending l sid none (some a) none none).1 =
        pre ++ { id := s.id, item := s.item, amount := a, currency := s.currency,
                 category := s.category, date := s.date } :: post := by
  induction l with
  | nil => obtain ⟨s, hs, _⟩ := h; cases hs
  | cons s0 rest ih =>
    by_cases h0 : s0.id = sid
    · refine ⟨by simp [CLI.edit_spending, h0], [], s0, rest, rfl, h0, by simp, ?_⟩
      simp [CLI.edit_spending, h0, CLI.applyEdit]
    · have hrest : ∃ s, s ∈ rest ∧ s.id = sid := by
        obtain ⟨s, hs, hsid⟩ := h
        rcases List.mem_cons.mp hs with heq | hmem
        · exact absurd (heq ▸ hsid) h0
        · exact ⟨s, hmem, hsid⟩
      obtain ⟨hfound, pre, s, post, heq, hsid, hpre, hres⟩ := ih hrest
      refine ⟨by simp [CLI.edit_spending, h0, hfound], s0 :: pre, s, post,
        by rw [heq]; rfl, hsid, ?_, ?_⟩
      · intro x hx
        rcases List.mem_cons.mp hx with rfl | hmem
        · exact h0
        · exact hpre x hmem
      · simp [CLI.edit_spending, h0, hres]

/-- Witness for C6 at a concrete two-record collection. -/
theorem edit_amount_only_partial_update_witness :
    (∃ s, s ∈ [(⟨"a", "Coffee", 2, "usd", "Food", "d1"⟩ : CLI.Spending),
               ⟨"b", "Lunch", 12, "usd", "Other", "d2"⟩] ∧ s.id = "b") ∧
    ((CLI.edit_spending
        [(⟨"a", "Coffee", 2, "usd", "Food", "d1"⟩ : CLI.Spending),
         ⟨"b", "Lunch", 12, "usd", "Other", "d2"⟩] "b" none (some 5) none none).2 =
      true ∧
    ∃ pre s post,
      [(⟨"a", "Coffee", 2, "usd", "Food", "d1"⟩ : CLI.Spending),
       ⟨"b", "Lunch", 12, "usd", "Other", "d2"⟩] = pre ++ s :: post ∧
      s.id = "b" ∧ (∀ x ∈ pre, x.id ≠ "b") ∧
      (CLI.edit_spending
        [(⟨"a", "Coffee", 2, "usd", "Food", "d1"⟩ : CLI.Spending),
         ⟨"b", "Lunch", 12, "usd", "Other", "d2"⟩] "b" none (some 5) none none).1 =
        pre ++ { id := s.id, item := s.item, amount := 5, currency := s.currency,
                 category := s.category, date := s.date } :: post) :=
  ⟨⟨⟨"b", "Lunch", 12, "usd", "Other", "d2"⟩, by decide, rfl⟩,
   edit_amount_only_partial_update
     [⟨"a", "Coffee", 2, "usd", "Food", "d1"⟩,
      ⟨"b", "Lunch", 12, "usd", "Other", "d2"⟩] "b" 5
     ⟨⟨"b", "Lunch", 12, "usd", "Other", "d2"⟩, by decide, rfl⟩⟩

/-- Lemma: `append_spending` appends a record whose id is the freshly drawn uuid
string (the constructor is always called with `id=None`). -/
theorem append_spending_map_id (l : List CLI.Spending) (op : CLI.AddOp) :
    (CLI.append_spending l op).map (·.id) = l.map (·.id) ++ [op.freshId] := by
  simp [CLI.append_spending, CLI.Spending.init]

/-- The ids after a sequence of `add` invocations are the prior ids
followed by the drawn uuid strings, in order. -/
theorem runAdds_map_id (ops : List CLI.AddOp) (l : List CLI.Spending) :
    (CLI.runAdds l ops).map (·.id) = l.map (·.id) ++ ops.map (·.freshId) := by
  induction ops generalizing l with
  | nil => simp [CLI.runAdds]
  | cons op rest ih =>
    show (CLI.runAdds (CLI.append_spending l op) rest).map (·.id) = _
    rw [ih, append_spending_map_id]
    simp

/-- Lemma: `edit_spending` never changes any record's id. -/
theorem edit_spending_map_id (l : List CLI.Spending) (sid : String)
    (item? : Option String) (amount? : Option ℚ)
    (currency? category? : Option String) :
    (CLI.edit_spending l sid item? amount? currency? category?).1.map (·.id) =
      l.map (·.id) := by
  induction l with
  | nil => rfl
  | cons s rest ih =>
    by_cases h : s.id = sid
    · simp [CLI.edit_spending, h, CLI.applyEdit]
    · simp [CLI.edit_spending, h, ih]

/-- V1: `append_spending` appends a record carrying the drawn uuid. -/
theorem v1_append_spending_map_id (l : List V1.Spending) (op : V1.AddOp) :
    (V1.append_spending l op).map (·.id) = l.map (·.id) ++ [op.freshId] := by
  simp [V1.append_spending, V1.Spending.init]

/-- V1: ids after a sequence of `add` invocations. -/
theorem v1_runAdds_map_id (ops : List V1.AddOp) (l : List V1.Spending) :
    (V1.runAdds l ops).map (·.id) = l.map (·.id) ++ ops.map (·.freshId) := by
  induction ops generalizing l with
  | nil => simp [V1.runAdds]
  | cons op rest ih =>
    show (V1.runAdds (V1.append_spending l op) rest).map (·.id) = _
    rw [ih, v1_append_spending_map_id]
    simp

/-- C4. Id uniqueness: a sequence of `add` calls yields pairwise
distinct ids whenever the drawn uuid strings are pairwise distinct (the
only uniqueness mechanism in the code is `uuid.uuid4()`, modelled as an
injective supply of fresh strings), and each operation preserves the
all-ids-distinct invariant: `add` when its fresh uuid is new, `edit`
unconditionally (it never touches ids), `delete` unconditionally (it only
drops records).  Both variants are covered. -/
theorem ids_pairwise_distinct :
    (∀ ops : List CLI.AddOp, (ops.map (·.freshId)).Nodup →
      ((CLI.runAdds [] ops).map (·.id)).Nodup) ∧
    (∀ (l : List CLI.Spending) (op : CLI.AddOp),
      (l.map (·.id)).Nodup → op.freshId ∉ l.map (·.id) →
      ((CLI.append_spending l op).map (·.id)).Nodup) ∧
    (∀ (l : List CLI.Spending) (sid : String) (item? : Option String)
        (amount? : Option ℚ) (currency? category? : Option String),
      (l.map (·.id)).Nodup →
      ((CLI.edit_spending l sid item? amount? currency? category?).1.map
        (·.id)).Nodup) ∧
    (∀ (l : List CLI.Spending) (sid : String), (l.map (·.id)).Nodup →
      ((CLI.delete_spending l sid).spendings.map (·.id)).Nodup) ∧
    (∀ ops : List V1.AddOp, (ops.map (·.freshId)).Nodup →
      ((V1.runAdds [] ops).map (·.id)).Nodup) ∧
    (∀ (l : List V1.Spending) (sid : PyVal), (l.map (·.id)).Nodup →
      ((V1.delete_spending l sid).spendings.map (·.id)).Nodup) := by
  refine ⟨fun ops h => ?_, fun l op h hnew => ?_, fun l sid i a c k h => ?_,
    fun l sid h => ?_, fun ops h => ?_, fun l sid h => ?_⟩
  · rw [runAdds_map_id]
    simpa using h
  · rw [append_spending_map_id, List.nodup_append]
    refine ⟨h, List.nodup_singleton _, ?_⟩
    intro x hx hxm
    rw [List.mem_singleton] at hxm
    exact hnew (hxm ▸ hx)
  · rw [edit_spending_map_id]
    exact h
  · exact ((List.filter_sublist l).map (·.id)).nodup h
  · rw [v1_runAdds_map_id]
    simpa using h
  · exact ((List.filter_sublist l).map (·.id)).nodup h

/-- Witness for C4: concrete instantiations of every part. -/
theorem ids_pairwise_distinct_witness :
    ((["u1", "u2"] : List String).Nodup ∧
      ((CLI.runAdds []
        [⟨"Coffee", 2, "usd", "Food", none, "u1", "t1"⟩,
         ⟨"Lunch", 12, "usd", "Other", none, "u2", "t2"⟩]).map (·.id)).Nodup) ∧
    ((([⟨"u1", "Coffee", 2, "usd", "Food", "t1"⟩] :
        List CLI.Spending).map (·.id)).Nodup ∧
      ("u3" : String) ∉ ([⟨"u1", "Coffee", 2, "usd", "Food", "t1"⟩] :
        List CLI.Spending).map (·.id) ∧
      ((CLI.append_spending [⟨"u1", "Coffee", 2, "usd", "Food", "t1"⟩]
        ⟨"Tea", 1, "usd", "Food", none, "u3", "t3"⟩).map (·.id)).Nodup) ∧
    (((CLI.edit_spending [⟨"u1", "Coffee", 2, "usd", "Food", "t1"⟩] "u1"
        none (some 5) none none).1.map (·.id)).Nodup) ∧
    (((CLI.delete_spending [⟨"u1", "Coffee", 2, "usd", "Food", "t1"⟩]
        "u1").spendings.map (·.id)).Nodup) ∧
    (((V1.runAdds [] [⟨"Coffee", 2, "Food", none, "u1", "t1"⟩]).map
        (·.id)).Nodup) ∧
    (((V1.delete_spending [⟨"u1", "Coffee", 2, "Food", "t1"⟩]
        (.int 3)).spendings.map (·.id)).Nodup) :=
  ⟨⟨by decide,
    ids_pairwise_distinct.1
      [⟨"Coffee", 2, "usd", "Food", none, "u1", "t1"⟩,
       ⟨"Lunch", 12, "usd", "Other", none, "u2", "t2"⟩] (by decide)⟩,
   ⟨by decide, by decide,
    ids_pairwise_distinct.2.1 [⟨"u1", "Coffee", 2, "usd", "Food", "t1"⟩]
      ⟨"Tea", 1, "usd", "Food", none, "u3", "t3"⟩ (by decide) (by decide)⟩,
   ids_pairwise_distinct.2.2.1 [⟨"u1", "Coffee", 2, "usd", "Food", "t1"⟩]
     "u1" none (some 5) none none (by decide),
   ids_pairwise_distinct.2.2.2.1 [⟨"u1", "Coffee", 2, "usd", "Food", "t1"⟩]
     "u1" (by decide),
   ids_pairwise_distinct.2.2.2.2.1 [⟨"Coffee", 2, "Food", none, "u1", "t1"⟩]
     (by decide),
   ids_pairwise_distinct.2.2.2.2.2 [⟨"u1", "Coffee", 2, "Food", "t1"⟩]
     (.int 3) (by decide)⟩

/-- Serializing one record with `to_dict` and rebuilding it with
`Spending(**item)` reproduces it exactly, provided its `id` and `date`
strings are non-empty (the constructor's `or`-defaulting replaces falsy
values). -/
theorem fromDict_toDict (f n : String) (s : CLI.Spending)
    (hid : s.id ≠ "") (hdate : s.date ≠ "") :
    CLI.fromDict f n (CLI.Spending.toDict s) = some s := by
  simp [CLI.fromDict, CLI.Spending.toDict, jlookup, CLI.allowedKey,
    CLI.Spending.init, hid, hdate]

/-- Element-wise round trip for the serialized array. -/
theorem decodeList_map_toDict (gen : Nat → String × String)
    (l : List CLI.Spending) (n : Nat)
    (hgood : ∀ s ∈ l, s.id ≠ "" ∧ s.date ≠ "") :
    CLI.decodeList gen (l.map CLI.Spending.toDict) n = some l := by
  induction l generalizing n with
  | nil => rfl
  | cons s rest ih =>
    have hs := hgood s (List.mem_cons_self s rest)
    have hrest := ih (n + 1) (fun x hx => hgood x (List.mem_cons_of_mem s hx))
    simp [CLI.decodeList, fromDict_toDict _ _ s hs.1 hs.2, hrest]

/-- V1: serializing one record and rebuilding it reproduces it exactly. -/
theorem v1_fromDict_toDict (f n : String) (s : V1.Spending)
    (hid : s.id ≠ "") (hdate : s.date ≠ "") :
    V1.fromDict f n (V1.Spending.toDict s) = some s := by
  simp [V1.fromDict, V1.Spending.toDict, jlookup, V1.allowedKey,
    V1.Spending.init, hid, hdate]

/-- V1: element-wise round trip for the serialized array. -/
theorem v1_decodeList_map_toDict (gen : Nat → String × String)
    (l : List V1.Spending) (n : Nat)
    (hgood : ∀ s ∈ l, s.id ≠ "" ∧ s.date ≠ "") :
    V1.decodeList gen (l.map V1.Spending.toDict) n = some l := by
  induction l generalizing n with
  | nil => rfl
  | cons s rest ih =>
    have hs := hgood s (List.mem_cons_self s rest)
    have hrest := ih (n + 1) (fun x hx => hgood x (List.mem_cons_of_mem s hx))
    simp [V1.decodeList, v1_fromDict_toDict _ _ s hs.1 hs.2, hrest]

/-- Every record produced by a sequence of `add` invocations has a
non-empty id and date, provided the drawn uuid and current-time strings
are non-empty (a `uuid4` string has 36 characters and the `strftime`
output 19). -/
theorem runAdds_good (ops : List CLI.AddOp) (l : List CLI.Spending)
    (hl : ∀ s ∈ l, s.id ≠ "" ∧ s.date ≠ "")
    (hops : ∀ op ∈ ops, op.freshId ≠ "" ∧ op.now ≠ "") :
    ∀ s ∈ CLI.runAdds l ops, s.id ≠ "" ∧ s.date ≠ "" := by
  induction ops generalizing l with
  | nil => exact hl
  | cons op rest ih =>
    have hop := hops op (List.mem_cons_self op rest)
    refine ih (CLI.append_spending l op) ?_
      (fun x hx => hops x (List.mem_cons_of_mem op hx))
    intro s hs
    rcases List.mem_append.mp hs with hmem | hnew
    · exact hl s hmem
    · rw [List.mem_singleton] at hnew
      subst hnew
      refine ⟨hop.1, ?_⟩
      show (match op.date? with
        | none => op.now
        | some s => if s = "" then op.now else s) ≠ ""
      match op.date? with
      | none => exact hop.2
      | some d =>
        by_cases hd : d = "" <;> simp [hd, hop.2]

/-- V1: records produced by `add` invocations have non-empty id and date. -/
theorem v1_runAdds_good (ops : List V1.AddOp) (l : List V1.Spending)
    (hl : ∀ s ∈ l, s.id ≠ "" ∧ s.date ≠ "")
    (hops : ∀ op ∈ ops, op.freshId ≠ "" ∧ op.now ≠ "") :
    ∀ s ∈ V1.runAdds l ops, s.id ≠ "" ∧ s.date ≠ "" := by
  induction ops generalizing l with
  | nil => exact hl
  | cons op rest ih =>
    have hop := hops op (List.mem_cons_self op rest)
    refine ih (V1.append_spending l op) ?_
      (fun x hx => hops x (List.mem_cons_of_mem op hx))
    intro s hs
    rcases List.mem_append.mp hs with hmem | hnew
    · exact hl s hmem
    · rw [List.mem_singleton] at hnew
      subst hnew
      refine ⟨hop.1, ?_⟩
      show (match op.date? with
        | none => op.now
        | some s => if s = "" then op.now else s) ≠ ""
      match op.date? with
      | none => exact hop.2
      | some d =>
        by_cases hd : d = "" <;> simp [hd, hop.2]

/-- C3. Round trip, both variants: after any sequence of `add`
operations (whose drawn uuid and timestamp strings are non-empty, as the
real draws always are), saving the collection and loading the written file
reproduces every record with every field — id, item, amount, category
(and currency in the full variant), date — exactly. -/
theorem add_persist_load_roundtrip :
    (∀ (ops : List CLI.AddOp) (gen : Nat → String × String),
      (∀ op ∈ ops, op.freshId ≠ "" ∧ op.now ≠ "") →
      CLI.load_spendings gen (some (some (CLI.savedJson (CLI.runAdds [] ops)))) =
        .ok (CLI.runAdds [] ops)) ∧
    (∀ (ops : List V1.AddOp) (gen : Nat → String × String),
      (∀ op ∈ ops, op.freshId ≠ "" ∧ op.now ≠ "") →
      V1.load_spendings gen (some (some (V1.savedJson (V1.runAdds [] ops)))) =
        .ok (V1.runAdds [] ops)) := by
  constructor
  · intro ops gen hops
    have hgood := runAdds_good ops [] (by simp) hops
    simp [CLI.load_spendings, CLI.savedJson, CLI.decodeSpendings,
      decodeList_map_toDict gen _ 0 hgood]
  · intro ops gen hops
    have hgood := v1_runAdds_good ops [] (by simp) hops
    simp [V1.load_spendings, V1.savedJson, V1.decodeSpendings,
      v1_decodeList_map_toDict gen _ 0 hgood]

/-- Witness for C3: concrete two-add sequences round-trip in both
variants. -/
theorem add_persist_load_roundtrip_witness :
    ((∀ op ∈ [(⟨"Coffee", 2, "usd", "Food", none, "u1", "2024-01-01 08:00:00"⟩ :
          CLI.AddOp),
        ⟨"Lunch", 12, "usd", "Other", some "2024-01-02 00:00:00", "u2",
          "2024-01-02 09:00:00"⟩], op.freshId ≠ "" ∧ op.now ≠ "") ∧
      CLI.load_spendings (fun _ => ("g", "h"))
        (some (some (CLI.savedJson (CLI.runAdds []
          [⟨"Coffee", 2, "usd", "Food", none, "u1", "2024-01-01 08:00:00"⟩,
           ⟨"Lunch", 12, "usd", "Other", some "2024-01-02 00:00:00", "u2",
             "2024-01-02 09:00:00"⟩])))) =
        .ok (CLI.runAdds []
          [⟨"Coffee", 2, "usd", "Food", none, "u1", "2024-01-01 08:00:00"⟩,
           ⟨"Lunch", 12, "usd", "Other", some "2024-01-02 00:00:00", "u2",
             "2024-01-02 09:00:00"⟩])) ∧
    ((∀ op ∈ [(⟨"Coffee", 2, "Food", none, "u1", "2024-01-01 08:00:00"⟩ :
          V1.AddOp)], op.freshId ≠ "" ∧ op.now ≠ "") ∧
      V1.load_spendings (fun _ => ("g", "h"))
        (some (some (V1.savedJson (V1.runAdds []
          [⟨"Coffee", 2, "Food", none, "u1", "2024-01-01 08:00:00"⟩])))) =
        .ok (V1.runAdds []
          [⟨"Coffee", 2, "Food", none, "u1", "2024-01-01 08:00:00"⟩])) :=
  ⟨⟨by decide,
    add_persist_load_roundtrip.1
      [⟨"Coffee", 2, "usd", "Food", none, "u1", "2024-01-01 08:00:00"⟩,
       ⟨"Lunch", 12, "usd", "Other", some "2024-01-02 00:00:00", "u2",
         "2024-01-02 09:00:00"⟩] (fun _ => ("g", "h")) (by decide)⟩,
   ⟨by decide,
    add_persist_load_roundtrip.2
      [⟨"Coffee", 2, "Food", none, "u1", "2024-01-01 08:00:00"⟩]
      (fun _ => ("g", "h")) (by decide)⟩⟩

/-- Lemma: `lookupTotal` on the empty totals dict. -/
theorem lookupTotal_nil (cur : String) : CLI.lookupTotal [] cur = none := rfl

/-- Lemma: `lookupTotal` on a non-empty totals dict. -/
theorem lookupTotal_cons (c0 : String) (a0 : ℚ) (rest : List (String × ℚ))
    (cur : String) :
    CLI.lookupTotal ((c0, a0) :: rest) cur =
      if c0 = cur then some a0 else CLI.lookupTotal rest cur := by
  unfold CLI.lookupTotal
  by_cases h : c0 = cur
  · rw [List.find?_cons_of_pos _ (by simp [h])]
    simp [h]
  · rw [List.find?_cons_of_neg _ (by simp [h])]
    simp [h]

/-- One `get_total_spendings` step against the totals dict: updating the
entry of currency `c` leaves every other lookup unchanged. -/
theorem lookupTotal_addToTotals (t : List (String × ℚ)) (c : String) (a : ℚ)
    (cur : String) :
    CLI.lookupTotal (CLI.addToTotals t c a) cur =
      if cur = c then some ((CLI.lookupTotal t c).getD 0 + a)
      else CLI.lookupTotal t cur := by
  induction t with
  | nil =>
    show CLI.lookupTotal [(c, a)] cur = _
    rw [lookupTotal_cons]
    by_cases h : cur = c
    · simp [h, lookupTotal_nil]
    · have h2 : ¬c = cur := fun hh => h hh.symm
      simp [h, h2, lookupTotal_nil]
  | cons p rest ih =>
    obtain ⟨c0, a0⟩ := p
    by_cases hc0 : c0 = c
    · subst hc0
      rw [show CLI.addToTotals ((c0, a0) :: rest) c0 a = (c0, a0 + a) :: rest
        from by simp [CLI.addToTotals]]
      rw [lookupTotal_cons, lookupTotal_cons]
      by_cases hcur : c0 = cur
      · subst hcur
        simp [lookupTotal_cons]
      · have hcc : ¬cur = c0 := fun hh => hcur hh.symm
        simp [hcur, hcc, lookupTotal_cons]
    · rw [show CLI.addToTotals ((c0, a0) :: rest) c a =
          (c0, a0) :: CLI.addToTotals rest c a
        from by simp [CLI.addToTotals, hc0]]
      rw [lookupTotal_cons, lookupTotal_cons, ih, lookupTotal_cons]
      by_cases h0 : c0 = cur
      · subst h0
        simp [fun hh : c0 = c => hc0 hh, fun hh : c = c0 => hc0 hh.symm, hc0]
      · by_cases hcur : cur = c <;> simp [h0, hcur, hc0]

/-- Folding `get_total_spendings` over a list adds to each currency's entry
exactly the sum of that currency's amounts. -/
theorem lookupTotal_foldl (l : List CLI.Spending) (t : List (String × ℚ))
    (cur : String) :
    CLI.lookupTotal
        (l.foldl (fun acc s => CLI.addToTotals acc s.currency s.amount) t) cur =
      if l.any (fun s => s.currency == cur)
      then some ((CLI.lookupTotal t cur).getD 0 +
        ((l.filter (fun s => s.currency == cur)).map (·.amount)).sum)
      else CLI.lookupTotal t cur := by
  induction l generalizing t with
  | nil => simp
  | cons s rest ih =>
    rw [List.foldl_cons, ih]
    by_cases hc : s.currency = cur
    · subst hc
      rw [lookupTotal_addToTotals]
      by_cases hany : rest.any (fun x => x.currency == s.currency) = true
      · simp [hany, add_assoc]
      · have hfil : rest.filter (fun x => x.currency == s.currency) = [] := by
          rw [List.filter_eq_nil_iff]
          intro x hx
          exact fun hxc => hany (List.any_eq_true.mpr ⟨x, hx, hxc⟩)
        simp [hany, hfil]
    · have hne : ¬(s.currency == cur) = true := by simp [hc]
      have hcs : ¬cur = s.currency := fun hh => hc hh.symm
      rw [lookupTotal_addToTotals]
      simp [hne, hcs]

/-- V1: `sum(s.amount for s in spendings)` is the sum of the amounts. -/
theorem v1_foldl_amount (l : List V1.Spending) (acc : ℚ) :
    l.foldl (fun a s => a + s.amount) acc = acc + (l.map (·.amount)).sum := by
  induction l generalizing acc with
  | nil => simp
  | cons s rest ih =>
    rw [List.foldl_cons, ih]
    simp [add_assoc]

/-- C1 counterexample. The spec's scenario itself refutes the claim
on the full variant: with records Coffee 3.50 (Food) and Lunch 12.00
(Other) and the category filter `Food`, the listing contains only the
Coffee record (whose amounts sum to 3.50), but the printed total — taken
from `get_total_spendings()`, which ignores the filters — is 15.50, not
3.50. -/
theorem overview_total_ignores_filter_counterexample :
    CLI.overview
      [⟨"a", "Coffee", 3.5, "usd", "Food", "2024-01-01 00:00:00"⟩,
       ⟨"b", "Lunch", 12, "usd", "Other", "2024-01-01 00:00:00"⟩]
      none none (some "Food") =
      some { listed := [⟨"a", "Coffee", 3.5, "usd", "Food", "2024-01-01 00:00:00"⟩],
             totals := [("usd", 15.5)] } ∧
    (([(⟨"a", "Coffee", 3.5, "usd", "Food", "2024-01-01 00:00:00"⟩ :
        CLI.Spending)].map (·.amount)).sum = 3.5) ∧
    (15.5 : ℚ) ≠ 3.5 := by
  refine ⟨?_, by norm_num, by norm_num⟩
  have hp : parseDateTime "2024-01-01 00:00:00" = some ⟨2024, 1, 1, 0, 0, 0⟩ := by
    decide
  simp [CLI.overview, CLI.overviewRecords, hp, CLI.passes, CLI.catBlocks,
    CLI.fromBlocks, CLI.toBlocks, CLI.get_total_spendings, CLI.addToTotals]
  norm_num

/-- C1 amended. On the full variant the totals `overview` reports are
computed over the **whole** collection, regardless of any supplied filters:
each currency's reported total is the sum of the amounts of all records of
that currency (and currencies with no record are absent), and two overviews
of the same collection under different filters report identical totals.  In
the simple variant the reported total is the sum of all amounts times the
conversion rate (that variant has no filters, so "records in view" are all
records). -/
theorem overview_total_all_records :
    (∀ (l : List CLI.Spending) (fromDate toDate : Option DateTime)
        (cat : Option String) (r : CLI.OverviewResult),
      CLI.overview l fromDate toDate cat = some r →
      ∀ cur, CLI.lookupTotal r.totals cur =
        if l.any (fun s => s.currency == cur)
        then some (((l.filter (fun s => s.currency == cur)).map (·.amount)).sum)
        else none) ∧
    (∀ (l : List CLI.Spending) (f1 t1 : Option DateTime) (c1 : Option String)
        (f2 t2 : Option DateTime) (c2 : Option String)
        (r1 r2 : CLI.OverviewResult),
      CLI.overview l f1 t1 c1 = some r1 → CLI.overview l f2 t2 c2 = some r2 →
      r1.totals = r2.totals) ∧
    (∀ (l : List V1.Spending) (rate : ℚ),
      V1.overviewTotal l rate = ((l.map (·.amount)).sum) * rate) := by
  refine ⟨fun l fromDate toDate cat r h cur => ?_,
    fun l f1 t1 c1 f2 t2 c2 r1 r2 h1 h2 => ?_, fun l rate => ?_⟩
  · have htot : r.totals = CLI.get_total_spendings l := by
      unfold CLI.overview at h
      cases hr : CLI.overviewRecords l fromDate toDate cat with
      | none => rw [hr] at h; cases h
      | some listed => rw [hr] at h; injection h with h; rw [← h]
    rw [htot]
    unfold CLI.get_total_spendings
    rw [lookupTotal_foldl]
    by_cases hany : l.any (fun s => s.currency == cur) = true <;>
      simp [hany, CLI.lookupTotal]
  · have htot1 : r1.totals = CLI.get_total_spendings l := by
      unfold CLI.overview at h1
      cases hr : CLI.overviewRecords l f1 t1 c1 with
      | none => rw [hr] at h1; cases h1
      | some listed => rw [hr] at h1; injection h1 with h1; rw [← h1]
    have htot2 : r2.totals = CLI.get_total_spendings l := by
      unfold CLI.overview at h2
      cases hr : CLI.overviewRecords l f2 t2 c2 with
      | none => rw [hr] at h2; cases h2
      | some listed => rw [hr] at h2; injection h2 with h2; rw [← h2]
    rw [htot1, htot2]
  · unfold V1.overviewTotal V1.get_total_spendings
    rw [v1_foldl_amount]
    simp

/-- Witness for the amended C1 at the spec's scenario: the totals lookup of
the overview under the `Food` filter reports the whole collection's `usd`
sum. -/
theorem overview_total_all_records_witness :
    (CLI.overview
        [⟨"a", "Coffee", 3.5, "usd", "Food", "2024-01-01 00:00:00"⟩,
         ⟨"b", "Lunch", 12, "usd", "Other", "2024-01-01 00:00:00"⟩]
        none none (some "Food") =
      some { listed := [⟨"a", "Coffee", 3.5, "usd", "Food", "2024-01-01 00:00:00"⟩],
             totals := [("usd", 15.5)] }) ∧
    CLI.lookupTotal
        ({ listed := [⟨"a", "Coffee", 3.5, "usd", "Food", "2024-01-01 00:00:00"⟩],
           totals := [("usd", 15.5)] } : CLI.OverviewResult).totals "usd" =
      (if ([(⟨"a", "Coffee", 3.5, "usd", "Food", "2024-01-01 00:00:00"⟩ :
              CLI.Spending),
            ⟨"b", "Lunch", 12, "usd", "Other", "2024-01-01 00:00:00"⟩].any
              (fun s => s.currency == "usd"))
       then some ((([(⟨"a", "Coffee", 3.5, "usd", "Food", "2024-01-01 00:00:00"⟩ :
              CLI.Spending),
            ⟨"b", "Lunch", 12, "usd", "Other", "2024-01-01 00:00:00"⟩].filter
              (fun s => s.currency == "usd")).map (·.amount)).sum)
       else none) := by
  have h : CLI.overview
      [⟨"a", "Coffee", 3.5, "usd", "Food", "2024-01-01 00:00:00"⟩,
       ⟨"b", "Lunch", 12, "usd", "Other", "2024-01-01 00:00:00"⟩]
      none none (some "Food") =
      some { listed := [⟨"a", "Coffee", 3.5, "usd", "Food", "2024-01-01 00:00:00"⟩],
             totals := [("usd", 15.5)] } := by
    have hp : parseDateTime "2024-01-01 00:00:00" = some ⟨2024, 1, 1, 0, 0, 0⟩ := by
      decide
    simp [CLI.overview, CLI.overviewRecords, hp, CLI.passes, CLI.catBlocks,
      CLI.fromBlocks, CLI.toBlocks, CLI.get_total_spendings, CLI.addToTotals]
    norm_num
  exact ⟨h, overview_total_all_records.1 _ none none (some "Food") _ h "usd"⟩

/-- The `continue`-chain of `overview`, as a conjunction: the category must
match when the filter is supplied **and non-empty** (Python truthiness),
and the parsed timestamp must lie within the supplied bounds, inclusively
(`<` / `>` drive the `continue`s, so the record is kept on equality). -/
theorem passes_iff (cat : Option String) (fromDate toDate : Option DateTime)
    (s : CLI.Spending) (dt : DateTime) :
    CLI.passes cat fromDate toDate s dt = true ↔
      ((∀ c, cat = some c → c ≠ "" → s.category = c) ∧
       (∀ fd, fromDate = some fd → DateTime.leb fd dt = true) ∧
       (∀ td, toDate = some td → DateTime.leb dt td = true)) := by
  unfold CLI.passes CLI.catBlocks CLI.fromBlocks CLI.toBlocks DateTime.leb
  cases cat with
  | none =>
    cases fromDate <;> cases toDate <;> simp
  | some c =>
    by_cases hc : c = "" <;>
      cases fromDate <;> cases toDate <;> simp [hc, bne, and_assoc]

/-- Membership in the filtered listing of `overview`: a record is listed
iff it is in the collection, its date string parses, and it survives the
three `continue` checks. -/
theorem overviewRecords_mem (l : List CLI.Spending)
    (fromDate toDate : Option DateTime) (cat : Option String)
    (out : List CLI.Spending)
    (h : CLI.overviewRecords l fromDate toDate cat = some out)
    (s : CLI.Spending) :
    s ∈ out ↔ s ∈ l ∧ ∃ dt, parseDateTime s.date = some dt ∧
      CLI.passes cat fromDate toDate s dt = true := by
  induction l generalizing out with
  | nil =>
    injection h with h
    subst h
    simp
  | cons s0 rest ih =>
    unfold CLI.overviewRecords at h
    cases hp : parseDateTime s0.date with
    | none => rw [hp] at h; cases h
    | some dt0 =>
      rw [hp] at h
      cases hr : CLI.overviewRecords rest fromDate toDate cat with
      | none => rw [hr] at h; cases h
      | some tail =>
        rw [hr] at h
        injection h with h
        subst h
        by_cases hpass : CLI.passes cat fromDate toDate s0 dt0 = true
        · rw [if_pos hpass]
          constructor
          · intro hmem
            rcases List.mem_cons.mp hmem with rfl | htail
            · exact ⟨List.mem_cons_self _ _, dt0, hp, hpass⟩
            · obtain ⟨hmr, dt, hdt, hps⟩ := (ih tail hr).mp htail
              exact ⟨List.mem_cons_of_mem _ hmr, dt, hdt, hps⟩
          · intro ⟨hmem, dt, hdt, hps⟩
            rcases List.mem_cons.mp hmem with rfl | hmr
            · exact List.mem_cons_self _ tail
            · exact List.mem_cons_of_mem _ ((ih tail hr).mpr ⟨hmr, dt, hdt, hps⟩)
        · rw [if_neg hpass]
          rw [ih tail hr]
          constructor
          · intro ⟨hmr, dt, hdt, hps⟩
            exact ⟨List.mem_cons_of_mem s0 hmr, dt, hdt, hps⟩
          · intro ⟨hmem, dt, hdt, hps⟩
            rcases List.mem_cons.mp hmem with rfl | hmr
            · rw [hp] at hdt
              injection hdt with hdt
              subst hdt
              exact absurd hps hpass
            · exact ⟨hmr, dt, hdt, hps⟩

/-- C10 amended. A record appears in the `list` overview iff it is in
the collection (with a parseable timestamp, which `overview` demands of
every record) and all supplied filters hold conjointly: the category
equals the filter exactly **when the filter is supplied and non-empty**
(an empty category string is falsy in Python, so `if category and ...`
skips the check), its parsed timestamp is ≥ the lower bound when supplied,
and ≤ the upper bound when supplied, both inclusively. -/
theorem overview_filter_conjunction (l : List CLI.Spending)
    (fromDate toDate : Option DateTime) (cat : Option String)
    (out : List CLI.Spending)
    (h : CLI.overviewRecords l fromDate toDate cat = some out)
    (s : CLI.Spending) :
    s ∈ out ↔ s ∈ l ∧ ∃ dt, parseDateTime s.date = some dt ∧
      (∀ c, cat = some c → c ≠ "" → s.category = c) ∧
      (∀ fd, fromDate = some fd → DateTime.leb fd dt = true) ∧
      (∀ td, toDate = some td → DateTime.leb dt td = true) := by
  rw [overviewRecords_mem l fromDate toDate cat out h s]
  constructor
  · intro ⟨hmem, dt, hdt, hps⟩
    exact ⟨hmem, dt, hdt, (passes_iff cat fromDate toDate s dt).mp hps⟩
  · intro ⟨hmem, dt, hdt, hconj⟩
    exact ⟨hmem, dt, hdt, (passes_iff cat fromDate toDate s dt).mpr hconj⟩

/-- Witness for the amended C10: with the `Food` filter and both date
bounds supplied, the Coffee record is listed and satisfies the
conjunction. -/
theorem overview_filter_conjunction_witness :
    (CLI.overviewRecords
        [⟨"a", "Coffee", 2, "usd", "Food", "2024-01-02 10:00:00"⟩,
         ⟨"b", "Lunch", 12, "usd", "Other", "2024-01-02 12:00:00"⟩]
        (some ⟨2024, 1, 1, 0, 0, 0⟩) (some ⟨2024, 1, 3, 0, 0, 0⟩)
        (some "Food") =
      some [⟨"a", "Coffee", 2, "usd", "Food", "2024-01-02 10:00:00"⟩]) ∧
    ((⟨"a", "Coffee", 2, "usd", "Food", "2024-01-02 10:00:00"⟩ : CLI.Spending) ∈
        [(⟨"a", "Coffee", 2, "usd", "Food", "2024-01-02 10:00:00"⟩ :
          CLI.Spending)] ↔
      (⟨"a", "Coffee", 2, "usd", "Food", "2024-01-02 10:00:00"⟩ : CLI.Spending) ∈
        [(⟨"a", "Coffee", 2, "usd", "Food", "2024-01-02 10:00:00"⟩ : CLI.Spending),
         ⟨"b", "Lunch", 12, "usd", "Other", "2024-01-02 12:00:00"⟩] ∧
      ∃ dt, parseDateTime
          (⟨"a", "Coffee", 2, "usd", "Food", "2024-01-02 10:00:00"⟩ :
            CLI.Spending).date = some dt ∧
        (∀ c, (some "Food" : Option String) = some c → c ≠ "" →
          (⟨"a", "Coffee", 2, "usd", "Food", "2024-01-02 10:00:00"⟩ :
            CLI.Spending).category = c) ∧
        (∀ fd, (some (⟨2024, 1, 1, 0, 0, 0⟩ : DateTime) : Option DateTime) =
          some fd → DateTime.leb fd dt = true) ∧
        (∀ td, (some (⟨2024, 1, 3, 0, 0, 0⟩ : DateTime) : Option DateTime) =
          some td → DateTime.leb dt td = true)) :=
  ⟨by decide,
   overview_filter_conjunction
     [⟨"a", "Coffee", 2, "usd", "Food", "2024-01-02 10:00:00"⟩,
      ⟨"b", "Lunch", 12, "usd", "Other", "2024-01-02 12:00:00"⟩]
     (some ⟨2024, 1, 1, 0, 0, 0⟩) (some ⟨2024, 1, 3, 0, 0, 0⟩) (some "Food")
     [⟨"a", "Coffee", 2, "usd", "Food", "2024-01-02 10:00:00"⟩] (by decide)
     ⟨"a", "Coffee", 2, "usd", "Food", "2024-01-02 10:00:00"⟩⟩

/-- C10 counterexample. Supplying `--category ""` refutes the claim
as stated: the Lunch record's category, `"Other"`, differs from the
supplied filter `""`, yet the record appears in the listing, because the
empty string is falsy in Python and `if category and ...` skips the
check. -/
theorem overview_empty_category_counterexample :
    CLI.overviewRecords
        [⟨"b", "Lunch", 12, "usd", "Other", "2024-01-01 00:00:00"⟩]
        none none (some "") =
      some [⟨"b", "Lunch", 12, "usd", "Other", "2024-01-01 00:00:00"⟩] ∧
    (⟨"b", "Lunch", 12, "usd", "Other", "2024-01-01 00:00:00"⟩ :
      CLI.Spending).category ≠ "" :=
  ⟨by decide, by decide⟩

/-- C9. In both variants, `load_spendings` yields the empty collection
when the backing file does not exist, and lets the deserialization failure
of an existing but unparseable file propagate as a fatal error. -/
theorem load_missing_empty_malformed_fatal :
    ∀ gen : Nat → String × String,
      (CLI.load_spendings gen none = .ok [] ∧
        ∃ e, CLI.load_spendings gen (some none) = .error e) ∧
      (V1.load_spendings gen none = .ok [] ∧
        ∃ e, V1.load_spendings gen (some none) = .error e) :=
  fun _ => ⟨⟨rfl, ⟨_, rfl⟩⟩, ⟨rfl, ⟨_, rfl⟩⟩⟩

end SpendTrack
